import Mathlib

/-!
Shallow embedding of the `rustc-hash` hashing library (files
`src/mum_add_hasher.rs`, `src/multilinear_hasher.rs`, `src/poly_hasher.rs`).

Machine integers are modelled as `Nat` with explicit `% 2^64` at every point
where the Rust code performs a wrapping operation or an `as u64` cast.  A
`usize` is modelled as a 64-bit value (the crate's digests are specified for
64-bit targets).  Byte slices are `List Nat` whose elements are byte values.
The three source files each contain a textually identical `multiply_mix` and
`hash_bytes` (differing only in the constants `SEED1`, `SEED2`,
`PREVENT_TRIVIAL_ZERO_COLLAPSE`), so those two are embedded once, generically
over a constant record `HashConsts`.
-/

/-- The `multiply_mix` function, identical in all three source files:
full 128-bit product of `x` and `y`; `full as u64` is `% 2^64`;
`(full >> 64) as u64` is `>>> 64` followed by `% 2^64`; return `lo ^ hi`. -/
def multiply_mix (x y : Nat) : Nat :=
  ((x * y) % 2^64) ^^^ (((x * y) >>> 64) % 2^64)

/-- Little-endian value of a list of bytes (byte 0 is least significant). -/
def leVal : List Nat → Nat
  | [] => 0
  | b :: bs => b + 256 * leVal bs

/-- Little-endian read of `n` bytes of `bytes` starting at offset `off`,
modelling `uN::from_le_bytes(bytes[off..off+n].try_into().unwrap())`. -/
def readLE (bytes : List Nat) (off n : Nat) : Nat :=
  leVal ((bytes.drop off).take n)

/-- The constants a copy of `hash_bytes` depends on: `SEED1`, `SEED2` and
`PREVENT_TRIVIAL_ZERO_COLLAPSE` of the enclosing source file. -/
structure HashConsts where
  seed1 : Nat
  seed2 : Nat
  ptzc : Nat
  deriving DecidableEq

/-- Constants of `mum_add_hasher.rs`: `SEED1`, `SEED2`,
`PREVENT_TRIVIAL_ZERO_COLLAPSE`. -/
def mumHashConsts : HashConsts :=
  ⟨0xa458fea3f4933d7e, 0x0d95748f728eb658, 0x718bcd5882154aee⟩

/-- Constants of `multilinear_hasher.rs`. -/
def multilinearHashConsts : HashConsts :=
  ⟨0x243f6a8885a308d3, 0x13198a2e03707344, 0x452821e638d01377⟩

/-- Constants of `poly_hasher.rs`. -/
def polyHashConsts : HashConsts :=
  ⟨0x243f6a8885a308d3, 0x13198a2e03707344, 0xa4093822299f31d0⟩

/-- The bulk `while off < len - 16` loop of `hash_bytes`.  The loop is embedded
with an explicit fuel argument for structural recursion; each iteration
advances `off` by 16, so `len` iterations of fuel are always sufficient
(every caller passes `fuel = len`, and the loop runs at most `len / 16 + 1`
times). -/
def hbLoop (c : HashConsts) (bytes : List Nat) (len : Nat) :
    Nat → Nat → Nat → Nat → Nat × Nat
  | 0, _, s0, s1 => (s0, s1)
  | fuel + 1, off, s0, s1 =>
    if off < len - 16 then
      hbLoop c bytes len fuel (off + 16) s1
        (multiply_mix (s0 ^^^ readLE bytes off 8) (c.ptzc ^^^ readLE bytes (off + 8) 8))
    else (s0, s1)

/-- The `hash_bytes` function, identical in all three source files up to the
constants `c`.  The lane pair after the branch on `len` is computed first,
then `multiply_mix(s0, s1) ^ len as u64` (list lengths are below `2^64`,
matching the 64-bit `usize`). -/
def hashBytesG (c : HashConsts) (bytes : List Nat) : Nat :=
  let len := bytes.length
  let p : Nat × Nat :=
    if len ≤ 16 then
      if 8 ≤ len then
        (c.seed1 ^^^ readLE bytes 0 8, c.seed2 ^^^ readLE bytes (len - 8) 8)
      else if 4 ≤ len then
        (c.seed1 ^^^ readLE bytes 0 4, c.seed2 ^^^ readLE bytes (len - 4) 4)
      else if 0 < len then
        (c.seed1 ^^^ bytes.getD 0 0,
         c.seed2 ^^^ ((bytes.getD (len - 1) 0 <<< 8) ||| bytes.getD (len / 2) 0))
      else
        (c.seed1, c.seed2)
    else
      let q := hbLoop c bytes len len 0 c.seed1 c.seed2
      let suffix := bytes.drop (len - 16)
      (q.1 ^^^ readLE suffix 0 8, q.2 ^^^ readLE suffix 8 8)
  multiply_mix p.1 p.2 ^^^ len

/-- The 16-word `ENTROPY` table of `mum_add_hasher.rs`. -/
def ENTROPY : List Nat := [
  0x243f6a8885a308d3, 0x13198a2e03707344, 0xa4093822299f31d0, 0x082efa98ec4e6c89,
  0x452821e638d01377, 0xbe5466cf34e90c6c, 0xc0ac29b7c97c50dd, 0x3f84d5b5b5470917,
  0x9216d5d98979fb1b, 0xd1310ba698dfb5ac, 0x2ffd72dbd01adfb7, 0xb8e1afed6a267e96,
  0xba7c9045f12c7f99, 0x24a19947b3916cf7, 0x0801f2e2858efc16, 0x636920d871574e69]

/-- State of `MumAddHasher`: `hash: u64`, `rng: u64`, `entropy_idx: usize`. -/
structure MumAddHasher where
  hash : Nat
  rng : Nat
  entropy_idx : Nat
  deriving DecidableEq

/-- `#[derive(Default)]`: all fields zero. -/
def MumAddHasher.default : MumAddHasher := ⟨0, 0, 0⟩

/-- `MumAddHasher::with_seed`: `hash: seed as u64, rng: seed as u64,
entropy_idx: 0` (the `as u64` cast of the `usize` seed is `% 2^64`). -/
def MumAddHasher.with_seed (seed : Nat) : MumAddHasher :=
  ⟨seed % 2^64, seed % 2^64, 0⟩

/-- `MumAddHasher::gen_rng`: `entropy_idx %= 16; rng = rng.wrapping_add(
ENTROPY[entropy_idx]); entropy_idx += 1; rng`.  Returned as the drawn value
paired with the updated state. -/
def MumAddHasher.gen_rng (s : MumAddHasher) : Nat × MumAddHasher :=
  let i := s.entropy_idx % 16
  let rng := (s.rng + ENTROPY.getD i 0) % 2^64
  (rng, ⟨s.hash, rng, i + 1⟩)

/-- `MumAddHasher::add_to_hash`: `hash = hash.wrapping_add(multiply_mix(x,
gen_rng()))`. -/
def MumAddHasher.add_to_hash (x : Nat) (s : MumAddHasher) : MumAddHasher :=
  let r := s.gen_rng
  ⟨(r.2.hash + multiply_mix x r.1) % 2^64, r.2.rng, r.2.entropy_idx⟩

/-- `MumAddHasher::double_add_to_hash`: two `gen_rng` draws, then
`hash = hash.wrapping_add(multiply_mix(x ^ rng1, y ^ rng2))`. -/
def MumAddHasher.double_add_to_hash (x y : Nat) (s : MumAddHasher) : MumAddHasher :=
  let r1 := s.gen_rng
  let r2 := r1.2.gen_rng
  ⟨(r2.2.hash + multiply_mix (x ^^^ r1.1) (y ^^^ r2.1)) % 2^64, r2.2.rng, r2.2.entropy_idx⟩

/-- `Hasher::write` for `MumAddHasher`: `add_to_hash(hash_bytes(bytes))`. -/
def MumAddHasher.write (bytes : List Nat) (s : MumAddHasher) : MumAddHasher :=
  s.add_to_hash (hashBytesG mumHashConsts bytes)

/-- `write_u8(i)`: `add_to_hash(i as u64)` (widening a byte is the identity). -/
def MumAddHasher.write_u8 (i : Nat) (s : MumAddHasher) : MumAddHasher :=
  s.add_to_hash i

/-- `write_u16(i)`: `add_to_hash(i as u64)`. -/
def MumAddHasher.write_u16 (i : Nat) (s : MumAddHasher) : MumAddHasher :=
  s.add_to_hash i

/-- `write_u32(i)`: `add_to_hash(i as u64)`. -/
def MumAddHasher.write_u32 (i : Nat) (s : MumAddHasher) : MumAddHasher :=
  s.add_to_hash i

/-- `write_u64(i)`: `add_to_hash(i as u64)`. -/
def MumAddHasher.write_u64 (i : Nat) (s : MumAddHasher) : MumAddHasher :=
  s.add_to_hash i

/-- `write_usize(i)`: `add_to_hash(i as u64)`; on the modelled 64-bit target
the cast is `% 2^64`. -/
def MumAddHasher.write_usize (i : Nat) (s : MumAddHasher) : MumAddHasher :=
  s.add_to_hash (i % 2^64)

/-- `write_u128(i)`: `double_add_to_hash(i as u64, (i >> 64) as u64)`. -/
def MumAddHasher.write_u128 (i : Nat) (s : MumAddHasher) : MumAddHasher :=
  s.double_add_to_hash (i % 2^64) ((i >>> 64) % 2^64)

/-- `write_length_prefix(len)`: the body is empty, the state is returned
untouched. -/
def MumAddHasher.write_length_prefix (_ : Nat) (s : MumAddHasher) : MumAddHasher :=
  s

/-- `write_str(s)`: `write(s.as_bytes())`; the argument is the UTF-8 bytes. -/
def MumAddHasher.write_str (bytes : List Nat) (s : MumAddHasher) : MumAddHasher :=
  s.write bytes

/-- `finish(&self)`: `self.hash as u64`.  The `&self` receiver is modelled by
returning the state alongside the digest; the body only reads `hash`. -/
def MumAddHasher.finish (s : MumAddHasher) : Nat × MumAddHasher :=
  (s.hash, s)

/-- `SEED3` of `multilinear_hasher.rs`. -/
def SEED3 : Nat := 0xa4093822299f31d0

/-- `SEED4` of `multilinear_hasher.rs`. -/
def SEED4 : Nat := 0x082efa98ec4e6c89

/-- `u64::rotate_right(x, n)` on the `Nat` model of `u64`. -/
def rotr64 (x n : Nat) : Nat :=
  (x >>> (n % 64)) ||| ((x <<< (64 - n % 64)) % 2^64)

/-- `u64::rotate_left(x, n)` on the `Nat` model of `u64`. -/
def rotl64 (x n : Nat) : Nat :=
  ((x <<< (n % 64)) % 2^64) ||| (x >>> (64 - n % 64))

/-- State of `MultilinearHasher`: `hash`, `rng_a`, `rng_b`, all `u64`. -/
structure MultilinearHasher where
  hash : Nat
  rng_a : Nat
  rng_b : Nat
  deriving DecidableEq

/-- `Default for MultilinearHasher`: `hash: 0, rng_a: SEED3, rng_b: SEED4`. -/
def MultilinearHasher.default : MultilinearHasher := ⟨0, SEED3, SEED4⟩

/-- `MultilinearHasher::with_seed`: `hash: 0, rng_a: seed as u64 ^ SEED3,
rng_b: seed as u64 ^ SEED4`. -/
def MultilinearHasher.with_seed (seed : Nat) : MultilinearHasher :=
  ⟨0, seed % 2^64 ^^^ SEED3, seed % 2^64 ^^^ SEED4⟩

/-- `MultilinearHasher::gen_rng`: `rng_b = rng_b.wrapping_add(rng_a);
rng_a ^= rng_b.rotate_right(27); rng_a`. -/
def MultilinearHasher.gen_rng (s : MultilinearHasher) : Nat × MultilinearHasher :=
  let rng_b := (s.rng_b + s.rng_a) % 2^64
  let rng_a := s.rng_a ^^^ rotr64 rng_b 27
  (rng_a, ⟨s.hash, rng_a, rng_b⟩)

/-- `MultilinearHasher::add_to_hash`: `hash = hash.wrapping_add(
x.wrapping_mul(gen_rng() | 1))`. -/
def MultilinearHasher.add_to_hash (x : Nat) (s : MultilinearHasher) : MultilinearHasher :=
  let r := s.gen_rng
  ⟨(r.2.hash + (x * (r.1 ||| 1)) % 2^64) % 2^64, r.2.rng_a, r.2.rng_b⟩

/-- `Hasher::write` for `MultilinearHasher`. -/
def MultilinearHasher.write (bytes : List Nat) (s : MultilinearHasher) : MultilinearHasher :=
  s.add_to_hash (hashBytesG multilinearHashConsts bytes)

/-- `write_u8(i)` for `MultilinearHasher`. -/
def MultilinearHasher.write_u8 (i : Nat) (s : MultilinearHasher) : MultilinearHasher :=
  s.add_to_hash i

/-- `write_u16(i)` for `MultilinearHasher`. -/
def MultilinearHasher.write_u16 (i : Nat) (s : MultilinearHasher) : MultilinearHasher :=
  s.add_to_hash i

/-- `write_u32(i)` for `MultilinearHasher`. -/
def MultilinearHasher.write_u32 (i : Nat) (s : MultilinearHasher) : MultilinearHasher :=
  s.add_to_hash i

/-- `write_u64(i)` for `MultilinearHasher`. -/
def MultilinearHasher.write_u64 (i : Nat) (s : MultilinearHasher) : MultilinearHasher :=
  s.add_to_hash i

/-- `write_usize(i)` for `MultilinearHasher`. -/
def MultilinearHasher.write_usize (i : Nat) (s : MultilinearHasher) : MultilinearHasher :=
  s.add_to_hash (i % 2^64)

/-- `write_length_prefix(len)` for `MultilinearHasher`: empty body. -/
def MultilinearHasher.write_length_prefix (_ : Nat) (s : MultilinearHasher) : MultilinearHasher :=
  s

/-- `write_str(s)` for `MultilinearHasher`: `write(s.as_bytes())`. -/
def MultilinearHasher.write_str (bytes : List Nat) (s : MultilinearHasher) : MultilinearHasher :=
  s.write bytes

/-- `finish(&self)` for `MultilinearHasher`: `self.hash as u64`. -/
def MultilinearHasher.finish (s : MultilinearHasher) : Nat × MultilinearHasher :=
  (s.hash, s)

/-- The LCG multiplier `K` of `poly_hasher.rs`. -/
def K : Nat := 0xf1357aea2e62a9c5

/-- State of `PolyHasher`: the single field `hash: u64`. -/
structure PolyHasher where
  hash : Nat
  deriving DecidableEq

/-- `#[derive(Default)]`: `hash: 0`. -/
def PolyHasher.default : PolyHasher := ⟨0⟩

/-- `PolyHasher::with_seed`: the body is `Self { hash: 0 }`; the `seed`
argument is not used. -/
def PolyHasher.with_seed (_ : Nat) : PolyHasher := ⟨0⟩

/-- `PolyHasher::add_to_hash`: `hash = hash.wrapping_add(x).wrapping_mul(K)`. -/
def PolyHasher.add_to_hash (x : Nat) (s : PolyHasher) : PolyHasher :=
  ⟨(s.hash + x) % 2^64 * K % 2^64⟩

/-- `Hasher::write` for `PolyHasher`. -/
def PolyHasher.write (bytes : List Nat) (s : PolyHasher) : PolyHasher :=
  s.add_to_hash (hashBytesG polyHashConsts bytes)

/-- `write_u8(i)` for `PolyHasher`. -/
def PolyHasher.write_u8 (i : Nat) (s : PolyHasher) : PolyHasher :=
  s.add_to_hash i

/-- `write_u16(i)` for `PolyHasher`. -/
def PolyHasher.write_u16 (i : Nat) (s : PolyHasher) : PolyHasher :=
  s.add_to_hash i

/-- `write_u32(i)` for `PolyHasher`. -/
def PolyHasher.write_u32 (i : Nat) (s : PolyHasher) : PolyHasher :=
  s.add_to_hash i

/-- `write_u64(i)` for `PolyHasher`. -/
def PolyHasher.write_u64 (i : Nat) (s : PolyHasher) : PolyHasher :=
  s.add_to_hash i

/-- `write_usize(i)` for `PolyHasher`. -/
def PolyHasher.write_usize (i : Nat) (s : PolyHasher) : PolyHasher :=
  s.add_to_hash (i % 2^64)

/-- `write_length_prefix(len)` for `PolyHasher`: empty body. -/
def PolyHasher.write_length_prefix (_ : Nat) (s : PolyHasher) : PolyHasher :=
  s

/-- `write_str(s)` for `PolyHasher`: `write(s.as_bytes())`. -/
def PolyHasher.write_str (bytes : List Nat) (s : PolyHasher) : PolyHasher :=
  s.write bytes

/-- `finish(&self)` for `PolyHasher`: `self.hash.rotate_left(20)`. -/
def PolyHasher.finish (s : PolyHasher) : Nat × PolyHasher :=
  (rotl64 s.hash 20, s)

/-- Claim-side formulation of the bulk loop, written from the spec's words:
"while offset < len - 16 reads two little-endian u64 words x, y at offset and
offset+8, computes t = multiply_mix(s0 XOR x, PREVENT_TRIVIAL_ZERO_COLLAPSE
XOR y), sets s0 := s1 and s1 := t, advances offset by 16". -/
def claimLoop (c : HashConsts) (bytes : List Nat) (len : Nat) :
    Nat → Nat → Nat → Nat → Nat × Nat
  | 0, _, s0, s1 => (s0, s1)
  | fuel + 1, off, s0, s1 =>
    if off < len - 16 then
      let x := readLE bytes off 8
      let y := readLE bytes (off + 8) 8
      let t := multiply_mix (s0 ^^^ x) (c.ptzc ^^^ y)
      claimLoop c bytes len fuel (off + 16) s1 t
    else (s0, s1)

/-- Claim-side formulation of `hash_bytes` for `len > 16`, written from the
spec's words: run the loop from the seeded lanes, then "XOR s0 and s1 with the
little-endian u64 words of the last 16 bytes of the input" (addressed directly
at `len - 16` and `len - 8` rather than through a suffix slice), and return
`multiply_mix(s0, s1) XOR len`. -/
def hashBytesClaimLarge (c : HashConsts) (bytes : List Nat) : Nat :=
  let len := bytes.length
  let q := claimLoop c bytes len len 0 c.seed1 c.seed2
  let s0 := q.1 ^^^ readLE bytes (len - 16) 8
  let s1 := q.2 ^^^ readLE bytes (len - 8) 8
  multiply_mix s0 s1 ^^^ len

/-- Claim-side formulation of `hash_bytes` for `len <= 16`, written from the
spec's words: if `len >= 8` XOR the first and last 8 bytes into the lanes; if
`4 <= len < 8` the u32-widened first and last 4 bytes; if `0 < len < 4` the
first byte into `s0` and `(last_byte << 8) | middle_byte` into `s1`; if
`len == 0` the lanes stay at the seeds; result `multiply_mix(s0, s1) XOR len`. -/
def hashBytesClaimSmall (c : HashConsts) (bytes : List Nat) : Nat :=
  let len := bytes.length
  let p : Nat × Nat :=
    if 8 ≤ len then
      (c.seed1 ^^^ readLE bytes 0 8, c.seed2 ^^^ readLE bytes (len - 8) 8)
    else if 4 ≤ len then
      (c.seed1 ^^^ readLE bytes 0 4, c.seed2 ^^^ readLE bytes (len - 4) 4)
    else if 0 < len then
      let first := bytes.getD 0 0
      let middle := bytes.getD (len / 2) 0
      let last := bytes.getD (len - 1) 0
      (c.seed1 ^^^ first, c.seed2 ^^^ ((last <<< 8) ||| middle))
    else (c.seed1, c.seed2)
  multiply_mix p.1 p.2 ^^^ len

/-- Bounds-checked little-endian read: `none` exactly when the Rust slice
expression `bytes[off..off+n]` would panic (or the subsequent `try_into` to an
`n`-byte array would fail). -/
def readLE? (bytes : List Nat) (off n : Nat) : Option Nat :=
  if off + n ≤ bytes.length then some (readLE bytes off n) else none

/-- Bounds-checked bulk loop: every slice access of the loop body is checked;
exhausted fuel while the loop guard still holds is also treated as a failure,
so a `some` result certifies that the modelled run is the complete one. -/
def hbLoopChecked (c : HashConsts) (bytes : List Nat) (len : Nat) :
    Nat → Nat → Nat → Nat → Option (Nat × Nat)
  | 0, off, s0, s1 => if off < len - 16 then none else some (s0, s1)
  | fuel + 1, off, s0, s1 =>
    if off < len - 16 then
      match readLE? bytes off 8, readLE? bytes (off + 8) 8 with
      | some x, some y =>
        hbLoopChecked c bytes len fuel (off + 16) s1
          (multiply_mix (s0 ^^^ x) (c.ptzc ^^^ y))
      | _, _ => none
    else some (s0, s1)

/-- Bounds-checked `hash_bytes`: every index, sub-slice and `try_into` of the
source is modelled by a checked access that returns `none` where the Rust
expression would panic. -/
def hashBytesChecked (c : HashConsts) (bytes : List Nat) : Option Nat :=
  let len := bytes.length
  if len ≤ 16 then
    if 8 ≤ len then
      match readLE? bytes 0 8, readLE? bytes (len - 8) 8 with
      | some a, some b => some (multiply_mix (c.seed1 ^^^ a) (c.seed2 ^^^ b) ^^^ len)
      | _, _ => none
    else if 4 ≤ len then
      match readLE? bytes 0 4, readLE? bytes (len - 4) 4 with
      | some a, some b => some (multiply_mix (c.seed1 ^^^ a) (c.seed2 ^^^ b) ^^^ len)
      | _, _ => none
    else if 0 < len then
      match bytes[0]?, bytes[len / 2]?, bytes[len - 1]? with
      | some lo, some mid, some hi =>
        some (multiply_mix (c.seed1 ^^^ lo) (c.seed2 ^^^ ((hi <<< 8) ||| mid)) ^^^ len)
      | _, _, _ => none
    else some (multiply_mix c.seed1 c.seed2 ^^^ len)
  else
    match hbLoopChecked c bytes len len 0 c.seed1 c.seed2 with
    | some q =>
      let suffix := bytes.drop (len - 16)
      match readLE? suffix 0 8, readLE? suffix 8 8 with
      | some a, some b => some (multiply_mix (q.1 ^^^ a) (q.2 ^^^ b) ^^^ len)
      | _, _ => none
    | none => none

/-- Digest of a single `write_u8(x)` after `with_seed(seed)` for
`MumAddHasher` (the write sequence of the seed-sensitivity test). -/
def mumDigest1 (seed x : Nat) : Nat :=
  ((MumAddHasher.with_seed seed).write_u8 x).finish.1

/-- Digest of a single `write_u8(x)` after `with_seed(seed)` for
`MultilinearHasher`. -/
def multiDigest1 (seed x : Nat) : Nat :=
  ((MultilinearHasher.with_seed seed).write_u8 x).finish.1

/-- Digest of a single `write_u8(x)` after `with_seed(seed)` for
`PolyHasher`. -/
def polyDigest1 (seed x : Nat) : Nat :=
  ((PolyHasher.with_seed seed).write_u8 x).finish.1

/-- The seed pairs of the crate's `with_seed_actually_different` test:
`[1, 2]`, `[42, 17]`, `[124436707, 99237]`, `[usize::MIN, usize::MAX]`. -/
def seedPairs : List (Nat × Nat) :=
  [(1, 2), (42, 17), (124436707, 99237), (0, 18446744073709551615)]

/-- For every tested seed pair and every byte `x`, the two `MumAddHasher`
digests of the single write `write_u8(x)` differ. -/
def mumSeedPairsCheck : Bool :=
  seedPairs.all fun p => (List.range 256).all fun x => mumDigest1 p.1 x != mumDigest1 p.2 x

/-- One mutating operation of the `Hasher` impl of `MumAddHasher`; `finish`
takes `&self` and is embedded as a pure function, so the reachable states are
exactly those produced by sequences of these writes. -/
inductive MumOp where
  | wbytes (bs : List Nat)
  | wu8 (i : Nat)
  | wu16 (i : Nat)
  | wu32 (i : Nat)
  | wu64 (i : Nat)
  | wusize (i : Nat)
  | wu128 (i : Nat)
  | wstr (bs : List Nat)
  | wlen (n : Nat)

/-- Apply one operation to a `MumAddHasher` state. -/
def MumOp.apply (op : MumOp) (s : MumAddHasher) : MumAddHasher :=
  match op with
  | .wbytes bs => s.write bs
  | .wu8 i => s.write_u8 i
  | .wu16 i => s.write_u16 i
  | .wu32 i => s.write_u32 i
  | .wu64 i => s.write_u64 i
  | .wusize i => s.write_usize i
  | .wu128 i => s.write_u128 i
  | .wstr bs => s.write_str bs
  | .wlen n => MumAddHasher.write_length_prefix n s

/-- Run a sequence of operations on a `MumAddHasher` state. -/
def MumOp.run (ops : List MumOp) (s : MumAddHasher) : MumAddHasher :=
  ops.foldl (fun t op => op.apply t) s

/-- Selector for one of the five scalar write methods shared by all three
hasher variants. -/
inductive ScalarKind where
  | u8
  | u16
  | u32
  | u64
  | usize

/-- The scalar write of kind `k` with value `0` on `MumAddHasher`. -/
def MumAddHasher.writeZero (k : ScalarKind) (s : MumAddHasher) : MumAddHasher :=
  match k with
  | .u8 => s.write_u8 0
  | .u16 => s.write_u16 0
  | .u32 => s.write_u32 0
  | .u64 => s.write_u64 0
  | .usize => s.write_usize 0

/-- The scalar write of kind `k` with value `0` on `MultilinearHasher`. -/
def MultilinearHasher.writeZero (k : ScalarKind) (s : MultilinearHasher) : MultilinearHasher :=
  match k with
  | .u8 => s.write_u8 0
  | .u16 => s.write_u16 0
  | .u32 => s.write_u32 0
  | .u64 => s.write_u64 0
  | .usize => s.write_usize 0

/-- The scalar write of kind `k` with value `0` on `PolyHasher`. -/
def PolyHasher.writeZero (k : ScalarKind) (s : PolyHasher) : PolyHasher :=
  match k with
  | .u8 => s.write_u8 0
  | .u16 => s.write_u16 0
  | .u32 => s.write_u32 0
  | .u64 => s.write_u64 0
  | .usize => s.write_usize 0

/-- Run a sequence of zero-valued scalar writes on `MumAddHasher` from
`default()`. -/
def mumZeroRun (ops : List ScalarKind) : MumAddHasher :=
  ops.foldl (fun s k => s.writeZero k) MumAddHasher.default

/-- Run a sequence of zero-valued scalar writes on `MultilinearHasher` from
`default()`. -/
def multiZeroRun (ops : List ScalarKind) : MultilinearHasher :=
  ops.foldl (fun s k => s.writeZero k) MultilinearHasher.default

/-- Run a sequence of zero-valued scalar writes on `PolyHasher` from
`default()`. -/
def polyZeroRun (ops : List ScalarKind) : PolyHasher :=
  ops.foldl (fun s k => s.writeZero k) PolyHasher.default

theorem claimLoop_eq_hbLoop (c : HashConsts) (bytes : List Nat) (len : Nat)
    (fuel : Nat) : ∀ off s0 s1,
    claimLoop c bytes len fuel off s0 s1 = hbLoop c bytes len fuel off s0 s1 := by
  induction fuel with
  | zero => intro off s0 s1; rfl
  | succ f ih =>
    intro off s0 s1
    by_cases hc : off < len - 16
    · simp only [claimLoop, hbLoop, if_pos hc]
      exact ih _ _ _
    · simp only [claimLoop, hbLoop, if_neg hc]

theorem readLE_drop (bytes : List Nat) (k m n : Nat) :
    readLE (bytes.drop k) m n = readLE bytes (k + m) n := by
  simp [readLE, List.drop_drop]

/-- Claim C1: for every byte slice with `len > 16`, `hash_bytes` seeds the two
lanes, runs the 16-byte-block loop `while off < len - 16` replacing
`(s0, s1)` by `(s1, multiply_mix(s0 ^ x, PREVENT_TRIVIAL_ZERO_COLLAPSE ^ y))`,
XORs the lanes with the little-endian words of the last 16 bytes, and returns
`multiply_mix(s0, s1) ^ len`; stated as equality with the claim-side
formulation `hashBytesClaimLarge`, generically over the constants of the three
source files. -/
theorem hash_bytes_large_matches_claim (c : HashConsts) (bytes : List Nat)
    (h : 16 < bytes.length) :
    hashBytesG c bytes = hashBytesClaimLarge c bytes := by
  have e1 : bytes.length - 16 + 0 = bytes.length - 16 := by omega
  have e2 : bytes.length - 16 + 8 = bytes.length - 8 := by omega
  simp only [hashBytesG, hashBytesClaimLarge, if_neg (by omega : ¬ bytes.length ≤ 16),
    claimLoop_eq_hbLoop, readLE_drop, e1, e2]

/-- Witness for C1 at the 17-byte input `[0, 1, ..., 16]`. -/
theorem hash_bytes_large_matches_claim_witness :
    16 < (List.range 17).length ∧
    hashBytesG mumHashConsts (List.range 17) = hashBytesClaimLarge mumHashConsts (List.range 17) :=
  ⟨by decide, hash_bytes_large_matches_claim mumHashConsts (List.range 17) (by decide)⟩

/-- Claim C2: for every byte slice with `len <= 16`, `hash_bytes` XORs the
seeded lanes with the overlapping front/back reads (8-byte, 4-byte, or
single-byte form, nothing for `len = 0`) and returns
`multiply_mix(s0, s1) ^ len`; stated as equality with the claim-side
formulation `hashBytesClaimSmall`. -/
theorem hash_bytes_small_matches_claim (c : HashConsts) (bytes : List Nat)
    (h : bytes.length ≤ 16) :
    hashBytesG c bytes = hashBytesClaimSmall c bytes := by
  simp only [hashBytesG, hashBytesClaimSmall, if_pos h]

/-- Witness for C2 at the 5-byte input `[1, 2, 3, 4, 5]`. -/
theorem hash_bytes_small_matches_claim_witness :
    ([1, 2, 3, 4, 5] : List Nat).length ≤ 16 ∧
    hashBytesG mumHashConsts [1, 2, 3, 4, 5] = hashBytesClaimSmall mumHashConsts [1, 2, 3, 4, 5] :=
  ⟨by decide, hash_bytes_small_matches_claim mumHashConsts [1, 2, 3, 4, 5] (by decide)⟩

theorem getElem?_eq_some_getD (l : List Nat) (i : Nat) (h : i < l.length) :
    l[i]? = some (l.getD i 0) := by
  induction l generalizing i with
  | nil => simp at h
  | cons a t ih =>
    cases i with
    | zero => simp
    | succ j =>
      simp only [List.getElem?_cons_succ, List.getD_cons_succ]
      exact ih j (by simpa using h)

theorem hbLoopChecked_eq_some (c : HashConsts) (bytes : List Nat) (len : Nat)
    (hlen : len = bytes.length) (hgt : 16 < len) :
    ∀ fuel off s0 s1, len - 16 - off ≤ 16 * fuel →
      hbLoopChecked c bytes len fuel off s0 s1 = some (hbLoop c bytes len fuel off s0 s1) := by
  intro fuel
  induction fuel with
  | zero =>
    intro off s0 s1 hf
    have hc : ¬ off < len - 16 := by omega
    simp only [hbLoopChecked, hbLoop, if_neg hc]
  | succ f ih =>
    intro off s0 s1 hf
    by_cases hc : off < len - 16
    · have h1 : off + 8 ≤ bytes.length := by omega
      have h2 : off + 8 + 8 ≤ bytes.length := by omega
      simp only [hbLoopChecked, hbLoop, if_pos hc, readLE?, if_pos h1, if_pos h2]
      exact ih (off + 16) s1 _ (by omega)
    · simp only [hbLoopChecked, hbLoop, if_neg hc]

/-- Claim C3: `hash_bytes` is total: on every byte slice, every index,
sub-slice and `try_into` conversion taken by the code is within bounds, so the
bounds-checked model `hashBytesChecked` (which returns `none` exactly where
the Rust code would panic) always returns `some` of the unchecked digest; the
statement is generic over the constants, covering the copies in
`mum_add_hasher.rs`, `multilinear_hasher.rs` and `poly_hasher.rs`. -/
theorem hash_bytes_total (c : HashConsts) (bytes : List Nat) :
    hashBytesChecked c bytes = some (hashBytesG c bytes) := by
  by_cases h16 : bytes.length ≤ 16
  · by_cases h8 : 8 ≤ bytes.length
    · have e1 : 0 + 8 ≤ bytes.length := by omega
      have e2 : bytes.length - 8 + 8 ≤ bytes.length := by omega
      simp only [hashBytesChecked, hashBytesG, if_pos h16, if_pos h8, readLE?,
        if_pos e1, if_pos e2]
    · by_cases h4 : 4 ≤ bytes.length
      · have e1 : 0 + 4 ≤ bytes.length := by omega
        have e2 : bytes.length - 4 + 4 ≤ bytes.length := by omega
        simp only [hashBytesChecked, hashBytesG, if_pos h16, if_neg h8, if_pos h4, readLE?,
          if_pos e1, if_pos e2]
      · by_cases h0 : 0 < bytes.length
        · have i1 : bytes.length / 2 < bytes.length := Nat.div_lt_self h0 (by omega)
          have i2 : bytes.length - 1 < bytes.length := by omega
          simp only [hashBytesChecked, hashBytesG, if_pos h16, if_neg h8, if_neg h4, if_pos h0,
            getElem?_eq_some_getD _ _ h0, getElem?_eq_some_getD _ _ i1,
            getElem?_eq_some_getD _ _ i2]
        · simp only [hashBytesChecked, hashBytesG, if_pos h16, if_neg h8, if_neg h4, if_neg h0]
  · have hgt : 16 < bytes.length := by omega
    have hloop := hbLoopChecked_eq_some c bytes bytes.length rfl hgt bytes.length 0
      c.seed1 c.seed2 (by omega)
    have hs : (bytes.drop (bytes.length - 16)).length = 16 := by
      rw [List.length_drop]; omega
    have e1 : 0 + 8 ≤ (bytes.drop (bytes.length - 16)).length := by rw [hs]; omega
    have e2 : 8 + 8 ≤ (bytes.drop (bytes.length - 16)).length := by rw [hs]
    simp only [hashBytesChecked, hashBytesG, if_neg h16, hloop, readLE?, if_pos e1, if_pos e2]

/-- Claim C4: `multiply_mix(x, y)` is the XOR of the low and high 64-bit
halves of the exact 128-bit product: it equals `(x*y mod 2^64) ^^^ (x*y div
2^64)`, the high half itself fits in 64 bits (nothing of the product is
truncated before the combination), and the two halves reassemble the exact
product. -/
theorem multiply_mix_xor_of_halves (x y : Nat) (hx : x < 2^64) (hy : y < 2^64) :
    multiply_mix x y = (x * y % 2^64) ^^^ (x * y / 2^64) ∧
    x * y / 2^64 < 2^64 ∧
    2^64 * (x * y / 2^64) + x * y % 2^64 = x * y := by
  have hlt : x * y < 2^64 * 2^64 := Nat.mul_lt_mul'' hx hy
  have hdiv : x * y / 2^64 < 2^64 := Nat.div_lt_of_lt_mul hlt
  refine ⟨?_, hdiv, Nat.div_add_mod _ _⟩
  simp only [multiply_mix, Nat.shiftRight_eq_div_pow, Nat.mod_eq_of_lt hdiv]

/-- Witness for C4 at `x = 3`, `y = 5`. -/
theorem multiply_mix_xor_of_halves_witness :
    (3 : Nat) < 2^64 ∧ (5 : Nat) < 2^64 ∧
    (multiply_mix 3 5 = (3 * 5 % 2^64) ^^^ (3 * 5 / 2^64) ∧
     3 * 5 / 2^64 < 2^64 ∧ 2^64 * (3 * 5 / 2^64) + 3 * 5 % 2^64 = 3 * 5) :=
  ⟨by decide, by decide, multiply_mix_xor_of_halves 3 5 (by decide) (by decide)⟩

/-- Counterexample to C5: `PolyHasher::with_seed` ignores its seed (`Self {
hash: 0 }`), so the distinct seeds 1 and 2 construct the same initial state. -/
theorem poly_with_seed_ignores_seed_cex :
    PolyHasher.with_seed 1 = PolyHasher.with_seed 2 ∧ (1 : Nat) ≠ 2 :=
  ⟨rfl, by decide⟩

/-- Claim C5 as amended: `MumAddHasher::with_seed` puts the seed into `hash`
and `rng` (which, the defaults being zero, is XOR-folding it into them) and
`MultilinearHasher::with_seed` XOR-folds the seed into `SEED3`/`SEED4`, so for
these two variants distinct 64-bit seeds construct distinct initial states;
`PolyHasher::with_seed` however ignores the seed and returns the default
state. -/
theorem with_seed_folds_seed_amended :
    (∀ a b : Nat, a < 2^64 → b < 2^64 → a ≠ b →
      MumAddHasher.with_seed a ≠ MumAddHasher.with_seed b ∧
      MultilinearHasher.with_seed a ≠ MultilinearHasher.with_seed b) ∧
    (∀ a : Nat, a < 2^64 →
      MumAddHasher.with_seed a = ⟨0 ^^^ a, 0 ^^^ a, 0⟩ ∧
      MultilinearHasher.with_seed a = ⟨0, a ^^^ SEED3, a ^^^ SEED4⟩) ∧
    ∀ a : Nat, PolyHasher.with_seed a = PolyHasher.default := by
  refine ⟨fun a b ha hb hne => ⟨fun h => ?_, fun h => ?_⟩,
    fun a ha => ⟨?_, ?_⟩, fun a => rfl⟩
  · have hh : a % 2^64 = b % 2^64 := congrArg MumAddHasher.hash h
    rw [Nat.mod_eq_of_lt ha, Nat.mod_eq_of_lt hb] at hh
    exact hne hh
  · have hh : a % 2^64 ^^^ SEED3 = b % 2^64 ^^^ SEED3 := congrArg MultilinearHasher.rng_a h
    have hh2 : a % 2^64 = b % 2^64 := by
      have := congrArg (fun z => z ^^^ SEED3) hh
      simpa only [Nat.xor_cancel_right] using this
    rw [Nat.mod_eq_of_lt ha, Nat.mod_eq_of_lt hb] at hh2
    exact hne hh2
  · have ha' : a % 2^64 = a := Nat.mod_eq_of_lt ha
    simp [MumAddHasher.with_seed, ha']
    omega
  · have ha' : a % 2^64 = a := Nat.mod_eq_of_lt ha
    simp [MultilinearHasher.with_seed, ha']
    omega

/-- Witness for the amended C5 at seeds 1 and 2. -/
theorem with_seed_folds_seed_amended_witness :
    (1 : Nat) < 2^64 ∧ (2 : Nat) < 2^64 ∧ (1 : Nat) ≠ 2 ∧
    MumAddHasher.with_seed 1 ≠ MumAddHasher.with_seed 2 :=
  ⟨by decide, by decide, by decide,
    (with_seed_folds_seed_amended.1 1 2 (by decide) (by decide) (by decide)).1⟩

/-- Counterexample to C6, one concrete failure per variant: `PolyHasher`
gives equal digests for the distinct seeds 1 and 2 on the byte 0 (the seed is
ignored); `MultilinearHasher` gives equal digests for seeds 1 and 2 on the
byte 0 (`0 * (rng | 1) = 0` keeps the accumulator at 0 under every seed); and
`MumAddHasher` gives equal digests for the distinct seeds 0 and `2^63` on the
byte 1. -/
theorem seed_sensitivity_cex :
    ((1 : Nat) ≠ 2 ∧ polyDigest1 1 0 = polyDigest1 2 0) ∧
    ((1 : Nat) ≠ 2 ∧ multiDigest1 1 0 = multiDigest1 2 0) ∧
    ((0 : Nat) ≠ 9223372036854775808 ∧
      mumDigest1 0 1 = mumDigest1 9223372036854775808 1) := by
  refine ⟨⟨by decide, ?_⟩, ⟨by decide, ?_⟩, ⟨by decide, ?_⟩⟩ <;> decide

set_option maxRecDepth 100000 in
/-- Claim C6 as amended: for `MumAddHasher` and the seed pairs of the crate's
`with_seed_actually_different` test (`(1,2)`, `(42,17)`, `(124436707,99237)`,
`(usize::MIN, usize::MAX)`), every single-byte write yields different digests
under the two seeds of a pair; the property does not extend to every distinct
seed pair nor to the other two variants. -/
theorem mum_seed_sensitivity_tested_pairs : mumSeedPairsCheck = true := by
  decide

/-- Counterexample to C7: sixteen `write_u8(0)` operations from `default()`
drive `entropy_idx` to exactly 16, which is not strictly below 16. -/
theorem entropy_idx_reaches_16_cex :
    (MumOp.run (List.replicate 16 (MumOp.wu8 0)) MumAddHasher.default).entropy_idx = 16 ∧
    ¬ (MumOp.run (List.replicate 16 (MumOp.wu8 0)) MumAddHasher.default).entropy_idx < 16 := by
  refine ⟨?_, ?_⟩ <;> decide

theorem MumOp.apply_idx_le (op : MumOp) (s : MumAddHasher) (h : s.entropy_idx ≤ 16) :
    (op.apply s).entropy_idx ≤ 16 := by
  cases op <;>
    simp only [MumOp.apply, MumAddHasher.write, MumAddHasher.write_u8, MumAddHasher.write_u16,
      MumAddHasher.write_u32, MumAddHasher.write_u64, MumAddHasher.write_usize,
      MumAddHasher.write_u128, MumAddHasher.write_str, MumAddHasher.write_length_prefix,
      MumAddHasher.add_to_hash, MumAddHasher.double_add_to_hash, MumAddHasher.gen_rng] <;>
    omega

/-- Claim C7 as amended: in every `MumAddHasher` state reachable from
`default()` or `with_seed(seed)` by a sequence of write operations (`finish`
takes `&self` and leaves the state untouched), `entropy_idx` is at most 16; it
reaches 16 right after every sixteenth `gen_rng` draw because the `%= 16`
reduction happens at the start of `gen_rng` and the `+= 1` at its end, and the
`ENTROPY` table is only ever indexed by the reduced value `entropy_idx % 16 <
16`. -/
theorem entropy_idx_le_16_amended (seed : Nat) (ops : List MumOp) :
    (MumOp.run ops MumAddHasher.default).entropy_idx ≤ 16 ∧
    (MumOp.run ops (MumAddHasher.with_seed seed)).entropy_idx ≤ 16 := by
  have gen : ∀ (ops : List MumOp) (s : MumAddHasher), s.entropy_idx ≤ 16 →
      (MumOp.run ops s).entropy_idx ≤ 16 := by
    intro ops
    induction ops with
    | nil => intro s hs; exact hs
    | cons op rest ih => intro s hs; exact ih _ (MumOp.apply_idx_le op s hs)
  exact ⟨gen ops _ (by simp [MumAddHasher.default]),
    gen ops _ (by simp [MumAddHasher.with_seed])⟩

/-- Claim C8: `finish` is read-only for all three variants: it returns the
state unchanged, and a second `finish` with no intervening write returns the
same 64-bit value. -/
theorem finish_read_only (s : MumAddHasher) (t : MultilinearHasher) (p : PolyHasher) :
    s.finish.2 = s ∧ s.finish.1 = s.finish.2.finish.1 ∧
    t.finish.2 = t ∧ t.finish.1 = t.finish.2.finish.1 ∧
    p.finish.2 = p ∧ p.finish.1 = p.finish.2.finish.1 :=
  ⟨rfl, rfl, rfl, rfl, rfl, rfl⟩

/-- Claim C9: `write_length_prefix` is an explicit no-op for all three
variants: the state (hence every one of its fields) is unchanged. -/
theorem write_length_prefix_noop (n : Nat) (s : MumAddHasher) (t : MultilinearHasher)
    (p : PolyHasher) :
    MumAddHasher.write_length_prefix n s = s ∧
    MultilinearHasher.write_length_prefix n t = t ∧
    PolyHasher.write_length_prefix n p = p :=
  ⟨rfl, rfl, rfl⟩

theorem mumWriteZero_hash (k : ScalarKind) (s : MumAddHasher) (h : s.hash = 0) :
    (s.writeZero k).hash = 0 := by
  cases k <;>
    simp [MumAddHasher.writeZero, MumAddHasher.write_u8, MumAddHasher.write_u16,
      MumAddHasher.write_u32, MumAddHasher.write_u64, MumAddHasher.write_usize,
      MumAddHasher.add_to_hash, MumAddHasher.gen_rng, multiply_mix, h]

theorem multiWriteZero_hash (k : ScalarKind) (s : MultilinearHasher)
    (h : s.hash = 0) : (s.writeZero k).hash = 0 := by
  cases k <;>
    simp [MultilinearHasher.writeZero, MultilinearHasher.write_u8, MultilinearHasher.write_u16,
      MultilinearHasher.write_u32, MultilinearHasher.write_u64, MultilinearHasher.write_usize,
      MultilinearHasher.add_to_hash, MultilinearHasher.gen_rng, h]

theorem polyWriteZero_hash (k : ScalarKind) (s : PolyHasher) (h : s.hash = 0) :
    (s.writeZero k).hash = 0 := by
  cases k <;>
    simp [PolyHasher.writeZero, PolyHasher.write_u8, PolyHasher.write_u16,
      PolyHasher.write_u32, PolyHasher.write_u64, PolyHasher.write_usize,
      PolyHasher.add_to_hash, h]

theorem mumZeroRun_hash_aux (ops : List ScalarKind) : ∀ s : MumAddHasher, s.hash = 0 →
    (ops.foldl (fun t k => t.writeZero k) s).hash = 0 := by
  induction ops with
  | nil => intro s h; exact h
  | cons k rest ih => intro s h; exact ih _ (mumWriteZero_hash k s h)

theorem multiZeroRun_hash_aux (ops : List ScalarKind) : ∀ s : MultilinearHasher, s.hash = 0 →
    (ops.foldl (fun t k => t.writeZero k) s).hash = 0 := by
  induction ops with
  | nil => intro s h; exact h
  | cons k rest ih => intro s h; exact ih _ (multiWriteZero_hash k s h)

theorem polyZeroRun_hash_aux (ops : List ScalarKind) : ∀ s : PolyHasher, s.hash = 0 →
    (ops.foldl (fun t k => t.writeZero k) s).hash = 0 := by
  induction ops with
  | nil => intro s h; exact h
  | cons k rest ih => intro s h; exact ih _ (polyWriteZero_hash k s h)

/-- Claim C10: starting from `default()`, every sequence of zero-valued scalar
writes (`write_u8(0)`, ..., `write_usize(0)`, in any number and order) keeps
the accumulator `hash` at 0 in all three variants, and `finish()` returns 0
(for `PolyHasher`, `rotate_left(0, 20) = 0`); the auxiliary RNG fields evolve
but never reach the digest. -/
theorem zero_writes_digest_zero (ops : List ScalarKind) :
    (mumZeroRun ops).hash = 0 ∧ (mumZeroRun ops).finish.1 = 0 ∧
    (multiZeroRun ops).hash = 0 ∧ (multiZeroRun ops).finish.1 = 0 ∧
    (polyZeroRun ops).hash = 0 ∧ (polyZeroRun ops).finish.1 = 0 := by
  have h1 : (mumZeroRun ops).hash = 0 := mumZeroRun_hash_aux ops _ rfl
  have h2 : (multiZeroRun ops).hash = 0 := multiZeroRun_hash_aux ops _ rfl
  have h3 : (polyZeroRun ops).hash = 0 := polyZeroRun_hash_aux ops _ rfl
  refine ⟨h1, ?_, h2, ?_, h3, ?_⟩
  · simpa [MumAddHasher.finish] using h1
  · simpa [MultilinearHasher.finish] using h2
  · simp [PolyHasher.finish, h3, rotl64]
